import Mathlib

/-!
Shallow embedding of the QueueCTL job queue (src/queuectl/) and proofs about
it.

Modelling conventions, derived from the source:

* Instants are integers counting UTC seconds since the epoch.  The code
  stores instants as ISO-8601 strings; two strings produced by Python's
  `datetime.isoformat()` ("YYYY-MM-DDTHH:MM:SS[.ffffff]") compare
  lexicographically exactly as the instants they denote compare
  chronologically (fixed-width fields, and a missing ".ffffff" suffix means
  microsecond zero, which the prefix order also ranks correctly), so
  comparisons between two Python-written columns are modelled as integer
  comparisons.

* The one exception is the stale-lease test in `JobStore.acquire_job` and
  `JobStore.clear_locks`:
      locked_at < datetime('now', '-5 minutes')
  Here the left side is a Python `isoformat()` string with a 'T' between
  date and time, while SQLite's `datetime()` renders "YYYY-MM-DD HH:MM:SS"
  with a space.  Under SQLite's BINARY collation the first ten characters
  are the two dates; if they differ the whole comparison is decided by the
  dates, and if they are equal the eleventh character decides: 'T' (0x54)
  is greater than ' ' (0x20), so a `locked_at` on the same UTC day as the
  threshold always compares greater-or-equal, never less.  Hence the SQL
  comparison holds iff the UTC calendar day of `locked_at` is strictly
  before the UTC calendar day of the threshold.  `staleLt` below models
  exactly that, with the day obtained by flooring division by 86400.

* The `jobs` table is a list of rows in rowid (insertion) order.  `SELECT
  ... ORDER BY created_at ASC LIMIT 1` carries no tie-break in the source
  SQL; the model resolves ties by row order (the first inserted row wins),
  a deterministic refinement of SQLite's unspecified tie order.

* Each SQL statement of the source is one atomic step on the table.  The
  `threading.Lock` held by `acquire_job` serializes acquires within one
  process only; the worker pool spawns separate OS processes
  (`multiprocessing.Process` in cli.py), and the Python sqlite3 module runs
  the SELECT in autocommit mode, so two processes may interleave at
  statement granularity.  `acquireSelect` and `acquireLock` are the two
  statements of `acquire_job`; `acquire_job` itself is their in-process
  (serialized) composition.

* `datetime.utcnow()` is read afresh at each call site, so every function
  that reads the clock takes the corresponding instants as parameters, in
  source order.
-/

/-- The five job states of `queuectl.models.JobState`. -/
inductive JobState where
  | pending
  | processing
  | completed
  | failed
  | dead
deriving DecidableEq, Repr

/-- A row of the `jobs` table / a `queuectl.models.Job` value. -/
structure Job where
  id : String
  command : String
  state : JobState
  attempts : Nat
  max_retries : Nat
  created_at : Int
  updated_at : Int
  next_retry_at : Option Int
  error_message : Option String
  locked_by : Option String
  locked_at : Option Int
deriving DecidableEq, Repr

/-- UTC calendar day of an instant: floor of seconds-since-epoch over 86400. -/
def utcDay (t : Int) : Int := Int.fdiv t 86400

/-- The SQL comparison `locked_at < datetime('now', '-5 minutes')` from
`acquire_job` and `clear_locks`.  As explained in the header, the mixed
'T'-separator / space-separator string comparison holds iff the UTC day of
the left instant precedes the UTC day of the right instant. -/
def staleLt (lockedAt threshold : Int) : Bool :=
  decide (utcDay lockedAt < utcDay threshold)

/-- The SQL condition `locked_by IS NULL OR locked_at < datetime('now','-5
minutes')` from the WHERE clause of `acquire_job` (a NULL `locked_at` makes
the second disjunct NULL, hence false). -/
def leaseFree (now : Int) (j : Job) : Bool :=
  j.locked_by.isNone ||
    (match j.locked_at with
     | some t => staleLt t (now - 300)
     | none => false)

/-- The SQL condition `next_retry_at <= ?` (with `?` bound to `now`) from
the failed branch of `acquire_job`; NULL `next_retry_at` gives false. -/
def dueRetry (now : Int) (j : Job) : Bool :=
  match j.next_retry_at with
  | some r => decide (r ≤ now)
  | none => false

/-- The full WHERE clause of the SELECT in `JobStore.acquire_job`: pending
with a free-or-stale lease, or failed whose retry time has passed with a
free-or-stale lease. -/
def eligible (now : Int) (j : Job) : Bool :=
  (decide (j.state = JobState.pending) && leaseFree now j) ||
    (decide (j.state = JobState.failed) && dueRetry now j && leaseFree now j)

/-- Model of `ORDER BY created_at ASC LIMIT 1` over a filtered row list: the first
row, in rowid order, whose `created_at` is minimal.  Ties keep the earlier
row. -/
def selectMin : List Job → Option Job
  | [] => none
  | j :: rest =>
    match selectMin rest with
    | none => some j
    | some k => if j.created_at ≤ k.created_at then some j else some k

/-- Model of `JobStore.get_job`: `SELECT * FROM jobs WHERE id = ?` returning the
first matching row or none. -/
def get_job (table : List Job) (i : String) : Option Job :=
  table.find? (fun j => j.id = i)

/-- First statement of `JobStore.acquire_job`: the SELECT choosing the id of
the row to lock, or none. -/
def acquireSelect (now : Int) (table : List Job) : Option String :=
  (selectMin (table.filter (eligible now))).map Job.id

/-- The row transformation of `acquire_job`'s UPDATE: `SET locked_by = ?,
locked_at = ?, state = 'processing'`.  Note the UPDATE touches no other
column (in particular not `updated_at`). -/
def lockedRow (w : String) (now : Int) (r : Job) : Job :=
  { r with locked_by := some w, locked_at := some now,
           state := JobState.processing }

/-- Second statement of `JobStore.acquire_job`: the UPDATE locking the
selected id (applied to every row carrying that id). -/
def acquireLock (w : String) (now : Int) (i : String) (table : List Job) :
    List Job :=
  table.map (fun r => if r.id = i then lockedRow w now r else r)

/-- Model of `JobStore.acquire_job` as executed under its in-process mutex: SELECT,
then UPDATE, then re-fetch of the locked row.  Returns the fetched snapshot
and the new table. -/
def acquire_job (w : String) (now : Int) (table : List Job) :
    Option Job × List Job :=
  match acquireSelect now table with
  | none => (none, table)
  | some i => (get_job (acquireLock w now i table) i, acquireLock w now i table)

/-- Model of `JobStore.enqueue`: INSERT of a fresh row with `locked_by` and
`locked_at` NULL; a duplicate primary key raises IntegrityError, which is
caught and returns false with nothing written. -/
def enqueue (table : List Job) (job : Job) : Bool × List Job :=
  if table.any (fun r => r.id = job.id) then (false, table)
  else (true, table ++ [{ job with locked_by := none, locked_at := none }])

/-- The row transformation of `JobStore.update_job`'s UPDATE: every column
except `id` and `created_at` is overwritten from the supplied job, with
`updated_at` stamped from a fresh `utcnow()` read (`now`) and the lease
columns cleared unconditionally. -/
def applyUpdate (now : Int) (job : Job) (r : Job) : Job :=
  { r with command := job.command, state := job.state,
           attempts := job.attempts, max_retries := job.max_retries,
           updated_at := now, next_retry_at := job.next_retry_at,
           error_message := job.error_message,
           locked_by := none, locked_at := none }

/-- Model of `JobStore.update_job`: UPDATE ... WHERE id = ?; returns whether any row
matched (`cursor.rowcount > 0`) together with the new table. -/
def update_job (now : Int) (job : Job) (table : List Job) :
    Bool × List Job :=
  (table.any (fun r => r.id = job.id),
   table.map (fun r => if r.id = job.id then applyUpdate now job r else r))

/-- Model of `JobStore.clear_locks`: with a worker id, reset that worker's
processing rows to pending and clear their lease; with none, do the same
for processing rows whose `locked_at` passes the (format-mismatched) stale
comparison against `now - 300` seconds. -/
def clear_locks (now : Int) (workerId : Option String) (table : List Job) :
    List Job :=
  match workerId with
  | some w =>
    table.map (fun j =>
      if j.locked_by = some w ∧ j.state = JobState.processing then
        { j with locked_by := none, locked_at := none,
                 state := JobState.pending }
      else j)
  | none =>
    table.map (fun j =>
      if (match j.locked_at with
          | some t => staleLt t (now - 300)
          | none => false) = true ∧ j.state = JobState.processing then
        { j with locked_by := none, locked_at := none,
                 state := JobState.pending }
      else j)

/-- Number of rows in a given state (the COUNT(*) of one GROUP BY group in
`JobStore.get_stats`). -/
def countState (table : List Job) (s : JobState) : Nat :=
  (table.filter (fun j => j.state = s)).length

/-- The distinct states occurring in the table: the group keys produced by
`GROUP BY state` in `JobStore.get_stats`. -/
def presentStates : List Job → List JobState
  | [] => []
  | j :: rest =>
    if j.state ∈ presentStates rest then presentStates rest
    else j.state :: presentStates rest

/-- Model of `JobStore.get_stats`: one `(state, count)` entry per state value that
occurs in the table; states with no rows produce no group and hence no
entry. -/
def get_stats (table : List Job) : List (JobState × Nat) :=
  (presentStates table).map (fun s => (s, countState table s))

/-- Model of `Worker._mark_completed`: set state to completed and `updated_at` to a
clock read `tDone`, then `store.update_job`, which re-stamps `updated_at`
with its own clock read `tUpd`.  The source does not touch
`error_message`. -/
def mark_completed (tDone tUpd : Int) (job : Job) (table : List Job) :
    Bool × List Job :=
  update_job tUpd { job with state := JobState.completed, updated_at := tDone }
    table

/-- The in-memory job produced by `Worker._handle_failure` before it is
stored: increment `attempts`, record the diagnostic and a clock read
`tFail`; then either dead with no retry time (attempts ≥ max_retries) or
failed with `next_retry_at` = a fresh clock read `tRetry` plus
`backoff_base ** attempts` seconds (post-increment attempts). -/
def failedJob (base : Int) (tFail tRetry : Int) (msg : String) (job : Job) :
    Job :=
  let j := { job with attempts := job.attempts + 1,
                      error_message := some msg, updated_at := tFail }
  if j.attempts ≥ j.max_retries then
    { j with state := JobState.dead, next_retry_at := none }
  else
    { j with state := JobState.failed,
             next_retry_at := some (tRetry + base ^ j.attempts) }

/-- Model of `Worker._handle_failure`: build the failed job and store it via
`update_job`, whose own clock read is `tUpd`. -/
def handle_failure (base : Int) (tFail tRetry tUpd : Int) (msg : String)
    (job : Job) (table : List Job) : Bool × List Job :=
  update_job tUpd (failedJob base tFail tRetry msg job) table

/-- Outcome reported by the `dlq retry` CLI command. -/
inductive RetryOutcome where
  | ok
  | notFound
  | invalidState (current : JobState)
  | updateFailed
deriving DecidableEq, Repr

/-- The in-memory reset performed by `dlq retry` before storing: back to
pending with attempts, diagnostic and retry time cleared. -/
def dlqReset (job : Job) : Job :=
  { job with state := JobState.pending, attempts := 0,
             error_message := none, next_retry_at := none }

/-- The `dlq retry` command (`retry` in cli.py): fetch the job; not-found
error if absent; invalid-state error naming the current state if it is not
dead; otherwise reset state/attempts/error_message/next_retry_at and store
via `update_job` (clock read `now`). -/
def dlq_retry (now : Int) (jobId : String) (table : List Job) :
    RetryOutcome × List Job :=
  match get_job table jobId with
  | none => (RetryOutcome.notFound, table)
  | some job =>
    if job.state = JobState.dead then
      let res := update_job now (dlqReset job) table
      ((if res.1 then RetryOutcome.ok else RetryOutcome.updateFailed), res.2)
    else
      (RetryOutcome.invalidState job.state, table)

/-- A fresh pending job used in the concrete scenarios. -/
def raceJob : Job :=
  { id := "A", command := "sleep 1", state := JobState.pending,
    attempts := 0, max_retries := 3, created_at := 0, updated_at := 0,
    next_retry_at := none, error_message := none,
    locked_by := none, locked_at := none }

/-- A processing job whose lease was granted 600 seconds (10 minutes) ago,
on the same UTC day as the present instant 50000. -/
def staleJob : Job :=
  { id := "E", command := "sleep 600", state := JobState.processing,
    attempts := 1, max_retries := 3, created_at := 0, updated_at := 49400,
    next_retry_at := none, error_message := some "worker vanished",
    locked_by := some "ghost", locked_at := some 49400 }

/-- C1: under the source's cross-process interleaving (each worker is a
separate OS process and the SELECT of `acquire_job` runs in autocommit
mode, so the in-process `threading.Lock` does not order the two calls) both
workers' SELECT phases run on the initial table and choose the same job
"A"; worker w1 then locks and re-fetches, and worker w2 locks and
re-fetches: both acquire calls return the job with id "A" — the same job,
neither null — and the record ends PROCESSING first with `locked_by = w1`,
then with `locked_by = w2`.  This refutes the claim that two concurrent
acquires by distinct workers observe distinct (or null) jobs. -/
theorem acquire_race_returns_same_job :
    acquireSelect 100 [raceJob] = some "A" ∧
    (get_job (acquireLock "w1" 100 "A" [raceJob]) "A").map
        (fun r => (r.id, r.locked_by, r.state))
      = some ("A", some "w1", JobState.processing) ∧
    (get_job (acquireLock "w2" 105 "A" (acquireLock "w1" 100 "A" [raceJob]))
        "A").map (fun r => (r.id, r.locked_by, r.state))
      = some ("A", some "w2", JobState.processing) := by
  decide

/-- C2: a PROCESSING job whose lease is 10 minutes old is not recovered.
`acquire_job`'s WHERE clause admits only pending and failed rows, so the
stale PROCESSING job "E" is never selected and acquire returns null; and
`clear_locks` (the reap), comparing the 'T'-separated `locked_at` string
against SQLite's space-separated threshold, finds a same-day lock never
stale and leaves the job untouched, contradicting its own docstring
("jobs locked for more than 5 minutes").  Only once the calendar day of
the threshold has advanced past the lock's day does the reap fire. -/
theorem stale_processing_not_recovered :
    (acquire_job "live" 50000 [staleJob]).1 = none ∧
    clear_locks 50000 none [staleJob] = [staleJob] ∧
    (acquire_job "live" 200000 [staleJob]).1 = none ∧
    clear_locks 200000 none [staleJob]
      = [{ staleJob with locked_by := none, locked_at := none,
                         state := JobState.pending }] := by
  decide

/-- Fetching an id after an UPDATE ... WHERE id = ? whose row transformation
preserves ids is the fetch before the update with the transformation
applied. -/
theorem get_job_map_update (i : String) (g : Job → Job)
    (hg : ∀ j, (g j).id = j.id) :
    ∀ table : List Job,
      get_job (table.map (fun r => if r.id = i then g r else r)) i
        = (get_job table i).map g
  | [] => rfl
  | h :: t => by
    by_cases hid : h.id = i
    · simp [get_job, hid, hg h]
    · simp only [get_job, List.map_cons, if_neg hid] at *
      rw [List.find?_cons_of_neg, List.find?_cons_of_neg]
      · exact get_job_map_update i g hg t
      · simpa using hid
      · simpa using hid

/-- A job that failed once (diagnostic recorded), got retried and this time
succeeded. -/
def retriedJob : Job :=
  { id := "J", command := "flaky", state := JobState.processing,
    attempts := 1, max_retries := 3, created_at := 0, updated_at := 10,
    next_retry_at := none, error_message := some "Exit code 1",
    locked_by := some "w1", locked_at := some 10 }

/-- C3: `Worker._mark_completed` sets only the state (and timestamps); the
stored record of a job that carried a diagnostic from an earlier failed
attempt ends in state COMPLETED with `error_message` still the old non-null
diagnostic, refuting the claim that every COMPLETED job has a null
`error_message` after the update. -/
theorem mark_completed_keeps_error_message :
    (get_job (mark_completed 20 20 retriedJob [retriedJob]).2 "J").map
        (fun r => (r.state, r.error_message))
      = some (JobState.completed, some "Exit code 1") ∧
    (some "Exit code 1" : Option String) ≠ none := by
  decide

/-- A plain pending job whose `updated_at` differs from the acquiring
instant. -/
def frameJob : Job :=
  { id := "F", command := "echo hi", state := JobState.pending,
    attempts := 0, max_retries := 3, created_at := 0, updated_at := 0,
    next_retry_at := none, error_message := none,
    locked_by := none, locked_at := none }

/-- C4 counterexample: acquiring `frameJob` at instant 1000 leaves the
stored row's `updated_at` at its old value 0 — the UPDATE of `acquire_job`
sets only `locked_by`, `locked_at` and `state`, so the claim that a
successful acquire changes `updated_at` to now is false. -/
theorem acquire_keeps_updated_at :
    (get_job (acquire_job "w1" 1000 [frameJob]).2 "F").map
        (fun r => (r.state, r.updated_at))
      = some (JobState.processing, (0 : Int)) ∧
    (0 : Int) ≠ 1000 := by
  decide

/-- Row-wise relation between the table before and after a successful
acquire returning snapshot `j`: every field except `state`, `locked_by`,
`locked_at` is preserved (including `updated_at`), rows with other ids are
untouched, and the selected id's row is locked for `w` at `now`. -/
def frameRel (w : String) (now : Int) (j : Job) (r r2 : Job) : Prop :=
  r2.id = r.id ∧ r2.command = r.command ∧ r2.attempts = r.attempts ∧
  r2.max_retries = r.max_retries ∧ r2.created_at = r.created_at ∧
  r2.updated_at = r.updated_at ∧ r2.next_retry_at = r.next_retry_at ∧
  r2.error_message = r.error_message ∧
  (r.id ≠ j.id → r2 = r) ∧
  (r.id = j.id → r2.state = JobState.processing ∧ r2.locked_by = some w ∧
    r2.locked_at = some now)

/-- C4 as amended: a successful acquire changes the selected job's row only
in `state` (to PROCESSING), `locked_by` (to the caller) and `locked_at` (to
now); `updated_at`, `attempts`, `next_retry_at`, `command`, `created_at`,
`max_retries` and `error_message` are unchanged, and every other row is
untouched. -/
theorem acquire_frame_effect (w : String) (now : Int) (table : List Job)
    (j : Job) (table2 : List Job)
    (h : acquire_job w now table = (some j, table2)) :
    List.Forall₂ (frameRel w now j) table table2 := by
  unfold acquire_job at h
  cases hsel : acquireSelect now table with
  | none => rw [hsel] at h; exact absurd (congrArg Prod.fst h) (by simp)
  | some i =>
      rw [hsel] at h
      have h1 : get_job (acquireLock w now i table) i = some j :=
        congrArg Prod.fst h
      have h2 : acquireLock w now i table = table2 := congrArg Prod.snd h
      have hj : j.id = i := by
        unfold get_job at h1
        simpa using List.find?_some h1
      subst h2
      rw [acquireLock, List.forall₂_map_right_iff]
      refine List.forall₂_same.2 (fun x hx => ?_)
      by_cases hxi : x.id = i
      · refine ⟨?_, ?_, ?_, ?_, ?_, ?_, ?_, ?_, ?_, ?_⟩ <;>
          simp [hxi, lockedRow, hj]
      · refine ⟨?_, ?_, ?_, ?_, ?_, ?_, ?_, ?_, ?_, ?_⟩ <;>
          simp [hxi, hj]

/-- Concrete instance of `acquire_frame_effect` at `frameJob`. -/
theorem acquire_frame_effect_witness :
    List.Forall₂ (frameRel "w9" 7 (lockedRow "w9" 7 frameJob))
      [frameJob] [lockedRow "w9" 7 frameJob] :=
  acquire_frame_effect "w9" 7 [frameJob] (lockedRow "w9" 7 frameJob)
    [lockedRow "w9" 7 frameJob] (by decide)

/-- The function `selectMin` returns none only on the empty list. -/
theorem selectMin_eq_none : ∀ {l : List Job}, selectMin l = none → l = [] := by
  intro l h
  cases l with
  | nil => rfl
  | cons a t =>
    exfalso
    unfold selectMin at h
    cases ht : selectMin t with
    | none =>
      rw [ht] at h
      have h2 : some a = (none : Option Job) := h
      exact Option.noConfusion h2
    | some k =>
      rw [ht] at h
      have h2 : (if a.created_at ≤ k.created_at then some a else some k)
          = (none : Option Job) := h
      by_cases hc : a.created_at ≤ k.created_at
      · rw [if_pos hc] at h2; exact Option.noConfusion h2
      · rw [if_neg hc] at h2; exact Option.noConfusion h2

/-- A job selected by `selectMin` comes from the list. -/
theorem selectMin_mem : ∀ {l : List Job} {j : Job},
    selectMin l = some j → j ∈ l := by
  intro l
  induction l with
  | nil => intro j h; cases h
  | cons a t ih =>
    intro j h
    unfold selectMin at h
    cases ht : selectMin t with
    | none =>
      rw [ht] at h
      have h2 : some a = some j := h
      rw [← Option.some.inj h2]
      exact List.mem_cons_self a t
    | some k =>
      rw [ht] at h
      have h2 : (if a.created_at ≤ k.created_at then some a else some k)
          = some j := h
      by_cases hc : a.created_at ≤ k.created_at
      · rw [if_pos hc] at h2
        rw [← Option.some.inj h2]
        exact List.mem_cons_self a t
      · rw [if_neg hc] at h2
        rw [← Option.some.inj h2]
        exact List.mem_cons_of_mem a (ih ht)

/-- The job selected by `selectMin` has minimal `created_at` in the list. -/
theorem selectMin_le : ∀ {l : List Job} {j : Job},
    selectMin l = some j → ∀ x ∈ l, j.created_at ≤ x.created_at := by
  intro l
  induction l with
  | nil => intro j h; cases h
  | cons a t ih =>
    intro j h x hx
    unfold selectMin at h
    cases ht : selectMin t with
    | none =>
      rw [ht] at h
      have h2 : some a = some j := h
      have hj : a = j := Option.some.inj h2
      subst hj
      have hte : t = [] := selectMin_eq_none ht
      subst hte
      cases List.mem_cons.1 hx with
      | inl he => rw [he]
      | inr hm => cases hm
    | some k =>
      rw [ht] at h
      have h2 : (if a.created_at ≤ k.created_at then some a else some k)
          = some j := h
      by_cases hc : a.created_at ≤ k.created_at
      · rw [if_pos hc] at h2
        have hj : a = j := Option.some.inj h2
        subst hj
        cases List.mem_cons.1 hx with
        | inl he => rw [he]
        | inr hm => exact le_trans hc (ih ht x hm)
      · rw [if_neg hc] at h2
        have hj : k = j := Option.some.inj h2
        subst hj
        cases List.mem_cons.1 hx with
        | inl he => rw [he]; exact le_of_not_le hc
        | inr hm => exact ih ht x hm

/-- The function `selectMin` of a nonempty list selects something. -/
theorem selectMin_isSome : ∀ {l : List Job},
    l ≠ [] → ∃ j, selectMin l = some j := by
  intro l hl
  cases hs : selectMin l with
  | some j => exact ⟨j, rfl⟩
  | none => exact absurd (selectMin_eq_none hs) hl

/-- Tied jobs for the C5 counterexample: `b` was inserted before `a`, both
pending, unlocked, with equal `created_at`. -/
def tieJobB : Job :=
  { id := "b", command := "echo b", state := JobState.pending,
    attempts := 0, max_retries := 3, created_at := 50, updated_at := 50,
    next_retry_at := none, error_message := none,
    locked_by := none, locked_at := none }

/-- Second tied job, with the smaller id ("a" precedes "b") but inserted
later. -/
def tieJobA : Job :=
  { id := "a", command := "echo a", state := JobState.pending,
    attempts := 0, max_retries := 3, created_at := 50, updated_at := 50,
    next_retry_at := none, error_message := none,
    locked_by := none, locked_at := none }

/-- C5 counterexample: with two simultaneously eligible jobs of equal
`created_at`, the SELECT of `acquire_job` (whose SQL orders by `created_at`
alone, with no id tie-break) picks the earlier-inserted row "b" even though
the eligible job "a" has the smaller id ("a" < "b" in any id order the
claim could mean), refuting the claimed tie-break by smallest id. -/
theorem acquire_tie_not_by_id :
    acquireSelect 100 [tieJobB, tieJobA] = some "b" ∧
    eligible 100 tieJobA = true ∧
    tieJobA.created_at = tieJobB.created_at ∧
    tieJobA.id = "a" ∧ tieJobB.id = "b" := by
  decide

/-- C5 as amended: whenever `acquireSelect` picks an id, that id belongs to
an eligible row whose `created_at` is minimal among all eligible rows (ties
are resolved by row order, not by id); and whenever some row is eligible,
`acquireSelect` does pick an id. -/
theorem acquire_selects_min_created :
    (∀ (now : Int) (table : List Job) (i : String),
      acquireSelect now table = some i →
      ∃ r, r ∈ table ∧ r.id = i ∧ eligible now r = true ∧
        ∀ x ∈ table, eligible now x = true → r.created_at ≤ x.created_at) ∧
    (∀ (now : Int) (table : List Job) (x : Job),
      x ∈ table → eligible now x = true →
      ∃ i, acquireSelect now table = some i) := by
  constructor
  · intro now table i h
    unfold acquireSelect at h
    cases hs : selectMin (table.filter (eligible now)) with
    | none => rw [hs] at h; cases h
    | some r =>
      rw [hs] at h
      refine ⟨r, ?_, ?_, ?_, ?_⟩
      · exact (List.mem_filter.1 (selectMin_mem hs)).1
      · exact Option.some.inj h
      · exact (List.mem_filter.1 (selectMin_mem hs)).2
      · intro x hx hex
        exact selectMin_le hs x (List.mem_filter.2 ⟨hx, hex⟩)
  · intro now table x hx hex
    have hne : table.filter (eligible now) ≠ [] := by
      intro hemp
      have hmf : x ∈ table.filter (eligible now) := List.mem_filter.2 ⟨hx, hex⟩
      rw [hemp] at hmf
      cases hmf
    obtain ⟨j, hj⟩ := selectMin_isSome hne
    exact ⟨j.id, by unfold acquireSelect; rw [hj]; rfl⟩

/-- Concrete instance of `acquire_selects_min_created` on the tied table. -/
theorem acquire_selects_min_created_witness :
    (∃ r, r ∈ [tieJobB, tieJobA] ∧ r.id = "b" ∧ eligible 100 r = true ∧
      ∀ x ∈ [tieJobB, tieJobA], eligible 100 x = true →
        r.created_at ≤ x.created_at) ∧
    (∃ i, acquireSelect 100 [tieJobB, tieJobA] = some i) :=
  ⟨acquire_selects_min_created.1 100 [tieJobB, tieJobA] "b" (by decide),
   acquire_selects_min_created.2 100 [tieJobB, tieJobA] tieJobA
     (by decide) (by decide)⟩

/-- The model of `Worker._handle_failure` never changes the job id. -/
theorem failedJob_id (base tFail tRetry : Int) (msg : String) (job : Job) :
    (failedJob base tFail tRetry msg job).id = job.id := by
  unfold failedJob
  dsimp only
  split <;> rfl

/-- Fetching the failed job's id after `handle_failure` sees the stored
transformation of the previously fetched row. -/
theorem get_job_handle_failure (base tFail tRetry tUpd : Int) (msg : String)
    (job : Job) (table : List Job) :
    get_job (handle_failure base tFail tRetry tUpd msg job table).2 job.id
      = (get_job table job.id).map
          (applyUpdate tUpd (failedJob base tFail tRetry msg job)) := by
  unfold handle_failure update_job
  dsimp only
  simp only [failedJob_id]
  exact get_job_map_update job.id
    (applyUpdate tUpd (failedJob base tFail tRetry msg job)) (fun r => rfl)
    table

/-- The row stored by `handle_failure` for a job previously fetched as
`r0`. -/
def storedFailure (base tFail tRetry tUpd : Int) (msg : String)
    (job r0 : Job) : Job :=
  applyUpdate tUpd (failedJob base tFail tRetry msg job) r0

/-- C6: after a failed run, `handle_failure` increments `attempts` exactly
once; the stored row is DEAD with null `next_retry_at` when the new
attempts reach `max_retries` — so every such DEAD row satisfies attempts ≥
max_retries — and otherwise FAILED with a non-null `next_retry_at` and
0 < attempts < max_retries. -/
theorem handle_failure_postcondition (base tFail tRetry tUpd : Int)
    (msg : String) (job : Job) (table : List Job) (r0 : Job)
    (h : get_job table job.id = some r0) :
    get_job (handle_failure base tFail tRetry tUpd msg job table).2 job.id
      = some (storedFailure base tFail tRetry tUpd msg job r0) ∧
    (storedFailure base tFail tRetry tUpd msg job r0).attempts
      = job.attempts + 1 ∧
    ((storedFailure base tFail tRetry tUpd msg job r0).state = JobState.dead ∨
      (storedFailure base tFail tRetry tUpd msg job r0).state
        = JobState.failed) ∧
    ((storedFailure base tFail tRetry tUpd msg job r0).state = JobState.dead →
      (storedFailure base tFail tRetry tUpd msg job r0).max_retries
          ≤ (storedFailure base tFail tRetry tUpd msg job r0).attempts ∧
      (storedFailure base tFail tRetry tUpd msg job r0).next_retry_at
        = none) ∧
    ((storedFailure base tFail tRetry tUpd msg job r0).state
        = JobState.failed →
      (storedFailure base tFail tRetry tUpd msg job r0).next_retry_at
          ≠ none ∧
      0 < (storedFailure base tFail tRetry tUpd msg job r0).attempts ∧
      (storedFailure base tFail tRetry tUpd msg job r0).attempts
        < (storedFailure base tFail tRetry tUpd msg job r0).max_retries) := by
  refine ⟨by rw [get_job_handle_failure, h]; rfl, ?_⟩
  unfold storedFailure applyUpdate failedJob
  dsimp only
  split
  · rename_i hge
    exact ⟨rfl, Or.inl rfl, fun _ => ⟨hge, rfl⟩,
           fun hcon => JobState.noConfusion hcon⟩
  · rename_i hge
    exact ⟨rfl, Or.inr rfl, fun hcon => JobState.noConfusion hcon,
           fun _ => ⟨Option.some_ne_none _, Nat.succ_pos _,
                     Nat.lt_of_not_ge hge⟩⟩

/-- A processing job on its first attempt, used in the failure scenarios. -/
def delayJob : Job :=
  { id := "D", command := "exit 1", state := JobState.processing,
    attempts := 0, max_retries := 3, created_at := 0, updated_at := 50,
    next_retry_at := none, error_message := none,
    locked_by := some "w1", locked_at := some 50 }

/-- Concrete instance of `handle_failure_postcondition` for `delayJob`. -/
theorem handle_failure_postcondition_witness :
    get_job (handle_failure 2 100 100 101 "boom" delayJob [delayJob]).2
        delayJob.id
      = some (storedFailure 2 100 100 101 "boom" delayJob delayJob) ∧
    (storedFailure 2 100 100 101 "boom" delayJob delayJob).attempts
      = delayJob.attempts + 1 ∧
    ((storedFailure 2 100 100 101 "boom" delayJob delayJob).state
        = JobState.dead ∨
      (storedFailure 2 100 100 101 "boom" delayJob delayJob).state
        = JobState.failed) ∧
    ((storedFailure 2 100 100 101 "boom" delayJob delayJob).state
        = JobState.dead →
      (storedFailure 2 100 100 101 "boom" delayJob delayJob).max_retries
          ≤ (storedFailure 2 100 100 101 "boom" delayJob delayJob).attempts ∧
      (storedFailure 2 100 100 101 "boom" delayJob delayJob).next_retry_at
        = none) ∧
    ((storedFailure 2 100 100 101 "boom" delayJob delayJob).state
        = JobState.failed →
      (storedFailure 2 100 100 101 "boom" delayJob delayJob).next_retry_at
          ≠ none ∧
      0 < (storedFailure 2 100 100 101 "boom" delayJob delayJob).attempts ∧
      (storedFailure 2 100 100 101 "boom" delayJob delayJob).attempts
        < (storedFailure 2 100 100 101 "boom" delayJob delayJob).max_retries) :=
  handle_failure_postcondition 2 100 100 101 "boom" delayJob [delayJob]
    delayJob (by decide)

/-- C7 counterexample: `_handle_failure` computes `next_retry_at` from one
`utcnow()` read (here 100) while `update_job` stamps `updated_at` from a
later read (here 101), so the stored difference is `backoff_base ^ k` minus
the elapsed gap — 1 second, not `2 ^ 1 = 2` — refuting the claimed exact
equality. -/
theorem retry_delay_not_exact :
    (get_job
        (handle_failure 2 100 100 101 "Exit code 1" delayJob [delayJob]).2
        "D").map (fun r => (r.next_retry_at, r.updated_at))
      = some (some 102, 101) ∧
    (102 : Int) - 101 ≠ 2 ^ 1 := by
  decide

/-- C7 as amended: for a job that just failed with new attempts
k = attempts + 1 < max_retries, the stored row has `next_retry_at` equal to
the scheduling clock read plus `backoff_base ^ k` seconds and `updated_at`
equal to `update_job`'s own (possibly later) clock read; when those two
reads coincide the claimed law `next_retry_at − updated_at =
backoff_base ^ k` holds exactly. -/
theorem retry_delay_law_amended (base tFail tRetry tUpd : Int)
    (msg : String) (job : Job) (table : List Job) (r0 : Job)
    (h : get_job table job.id = some r0)
    (hlt : job.attempts + 1 < job.max_retries) :
    get_job (handle_failure base tFail tRetry tUpd msg job table).2 job.id
      = some (storedFailure base tFail tRetry tUpd msg job r0) ∧
    (storedFailure base tFail tRetry tUpd msg job r0).next_retry_at
      = some (tRetry + base ^ (job.attempts + 1)) ∧
    (storedFailure base tFail tRetry tUpd msg job r0).updated_at = tUpd ∧
    (tUpd = tRetry →
      (storedFailure base tFail tRetry tUpd msg job r0).next_retry_at
        = some ((storedFailure base tFail tRetry tUpd msg job r0).updated_at
            + base ^ (job.attempts + 1))) := by
  refine ⟨by rw [get_job_handle_failure, h]; rfl, ?_⟩
  unfold storedFailure applyUpdate failedJob
  dsimp only
  rw [if_neg (Nat.not_le.mpr hlt)]
  exact ⟨rfl, rfl, fun he => by rw [he]⟩

/-- Concrete instance of `retry_delay_law_amended` with coinciding clock
reads, where the delay law holds exactly. -/
theorem retry_delay_law_amended_witness :
    get_job
        (handle_failure 2 100 100 100 "Exit code 1" delayJob [delayJob]).2
        delayJob.id
      = some (storedFailure 2 100 100 100 "Exit code 1" delayJob delayJob) ∧
    (storedFailure 2 100 100 100 "Exit code 1" delayJob delayJob).next_retry_at
      = some (100 + 2 ^ (delayJob.attempts + 1)) ∧
    (storedFailure 2 100 100 100 "Exit code 1" delayJob delayJob).updated_at
      = 100 ∧
    ((100 : Int) = 100 →
      (storedFailure 2 100 100 100 "Exit code 1" delayJob delayJob).next_retry_at
        = some
            ((storedFailure 2 100 100 100 "Exit code 1" delayJob
                delayJob).updated_at
              + 2 ^ (delayJob.attempts + 1))) :=
  retry_delay_law_amended 2 100 100 100 "Exit code 1" delayJob [delayJob]
    delayJob (by decide) (by decide)

/-- C8: enqueueing a job whose id already exists in the table returns false
and leaves the table — every record in it — exactly unchanged; enqueue
never overwrites. -/
theorem enqueue_duplicate_noop (table : List Job) (job r : Job)
    (hr : r ∈ table) (hid : r.id = job.id) :
    enqueue table job = (false, table) := by
  unfold enqueue
  rw [if_pos]
  exact List.any_eq_true.2 ⟨r, hr, by simp [hid]⟩

/-- The two duplicate-id submissions of scenario S4. -/
def dupX : Job :=
  { id := "dup", command := "x", state := JobState.pending,
    attempts := 0, max_retries := 3, created_at := 0, updated_at := 0,
    next_retry_at := none, error_message := none,
    locked_by := none, locked_at := none }

/-- Second submission with the same id and a different command. -/
def dupY : Job :=
  { id := "dup", command := "y", state := JobState.pending,
    attempts := 0, max_retries := 3, created_at := 1, updated_at := 1,
    next_retry_at := none, error_message := none,
    locked_by := none, locked_at := none }

/-- Concrete instance of `enqueue_duplicate_noop`: scenario S4 — the second
enqueue of id "dup" returns false and `get("dup")` still has command "x". -/
theorem enqueue_duplicate_noop_witness :
    enqueue (enqueue [] dupX).2 dupY = (false, (enqueue [] dupX).2) ∧
    (get_job (enqueue [] dupX).2 "dup").map Job.command = some "x" :=
  ⟨enqueue_duplicate_noop (enqueue [] dupX).2 dupY dupX (by decide)
      (by decide),
   by decide⟩

/-- A state is a group key of `get_stats` exactly when some row has it. -/
theorem presentStates_mem : ∀ (table : List Job) (s : JobState),
    s ∈ presentStates table ↔ ∃ j, j ∈ table ∧ j.state = s := by
  intro table s
  induction table with
  | nil => simp [presentStates]
  | cons a t ih =>
    unfold presentStates
    by_cases h : a.state ∈ presentStates t
    · rw [if_pos h]
      constructor
      · intro hs
        obtain ⟨j, hj, hjs⟩ := ih.1 hs
        exact ⟨j, List.mem_cons_of_mem a hj, hjs⟩
      · rintro ⟨j, hj, hjs⟩
        cases List.mem_cons.1 hj with
        | inl he => rw [← hjs, he]; exact h
        | inr hm => exact ih.2 ⟨j, hm, hjs⟩
    · rw [if_neg h]
      constructor
      · intro hs
        cases List.mem_cons.1 hs with
        | inl he => exact ⟨a, List.mem_cons_self a t, he.symm⟩
        | inr hm =>
          obtain ⟨j, hj, hjs⟩ := ih.1 hm
          exact ⟨j, List.mem_cons_of_mem a hj, hjs⟩
      · rintro ⟨j, hj, hjs⟩
        cases List.mem_cons.1 hj with
        | inl he =>
          rw [← hjs, he]
          exact List.mem_cons_self a.state (presentStates t)
        | inr hm => exact List.mem_cons_of_mem _ (ih.2 ⟨j, hm, hjs⟩)

/-- The per-state count is positive exactly when some row has the state. -/
theorem countState_pos : ∀ (table : List Job) (s : JobState),
    0 < countState table s ↔ ∃ j, j ∈ table ∧ j.state = s := by
  intro table s
  rw [countState, List.length_pos_iff_exists_mem]
  constructor
  · rintro ⟨x, hx⟩
    have hm := List.mem_filter.1 hx
    exact ⟨x, hm.1, by simpa using hm.2⟩
  · rintro ⟨j, hj, hjs⟩
    exact ⟨j, List.mem_filter.2 ⟨hj, by simp [hjs]⟩⟩

/-- C10: the mapping returned by `get_stats` has an entry for a state
exactly when at least one job currently has that state (a state with zero
jobs is absent, not mapped to 0), and each present entry is the exact count
of jobs in that state. -/
theorem get_stats_spec : ∀ (table : List Job) (s : JobState) (n : Nat),
    (s, n) ∈ get_stats table ↔
      0 < countState table s ∧ n = countState table s := by
  intro table s n
  unfold get_stats
  rw [List.mem_map]
  constructor
  · rintro ⟨s2, hs2, heq⟩
    have hs : s2 = s := congrArg Prod.fst heq
    have hn : countState table s2 = n := congrArg Prod.snd heq
    subst hs
    exact ⟨(countState_pos table s2).2 ((presentStates_mem table s2).1 hs2),
           hn.symm⟩
  · rintro ⟨hpos, hn⟩
    refine ⟨s, (presentStates_mem table s).2 ((countState_pos table s).1 hpos),
            ?_⟩
    rw [hn]

/-- Concrete instance of `get_stats_spec`: a table with one pending job has
the entry (pending, 1) and, since the count of completed jobs is 0, no
entry for completed. -/
theorem get_stats_spec_witness :
    (JobState.pending, 1) ∈ get_stats [frameJob] ∧
    ¬ (JobState.completed, 0) ∈ get_stats [frameJob] :=
  ⟨(get_stats_spec [frameJob] JobState.pending 1).2 ⟨by decide, by decide⟩,
   fun hmem =>
     absurd ((get_stats_spec [frameJob] JobState.completed 0).1 hmem).1
       (by decide)⟩

/-- C9: `dlq retry` on a DEAD job reports ok and stores it with state
PENDING, attempts 0, null error_message and null next_retry_at; on an
existing job in any other state it fails with an invalid-state error
naming the current state and changes nothing; on an unknown id it fails
with a not-found error and changes nothing. -/
theorem dlq_retry_spec (now : Int) (i : String) (table : List Job) :
    (get_job table i = none →
      dlq_retry now i table = (RetryOutcome.notFound, table)) ∧
    (∀ job, get_job table i = some job → job.state ≠ JobState.dead →
      dlq_retry now i table = (RetryOutcome.invalidState job.state, table)) ∧
    (∀ job, get_job table i = some job → job.state = JobState.dead →
      (dlq_retry now i table).1 = RetryOutcome.ok ∧
      get_job (dlq_retry now i table).2 i
        = some (applyUpdate now (dlqReset job) job) ∧
      (applyUpdate now (dlqReset job) job).state = JobState.pending ∧
      (applyUpdate now (dlqReset job) job).attempts = 0 ∧
      (applyUpdate now (dlqReset job) job).error_message = none ∧
      (applyUpdate now (dlqReset job) job).next_retry_at = none) := by
  refine ⟨?_, ?_, ?_⟩
  · intro h
    unfold dlq_retry
    rw [h]
  · intro job hj hns
    unfold dlq_retry
    rw [hj]
    dsimp only
    rw [if_neg hns]
  · intro job hj hd
    have hid : job.id = i := by
      unfold get_job at hj
      simpa using List.find?_some hj
    have hmem : job ∈ table := by
      unfold get_job at hj
      exact List.mem_of_find?_eq_some hj
    have h1 : (update_job now (dlqReset job) table).1 = true := by
      unfold update_job
      dsimp only
      refine List.any_eq_true.2 ⟨job, hmem, ?_⟩
      simp [dlqReset]
    unfold dlq_retry
    rw [hj]
    dsimp only
    rw [if_pos hd]
    refine ⟨?_, ?_, rfl, rfl, rfl, rfl⟩
    · show (if (update_job now (dlqReset job) table).1 then RetryOutcome.ok
          else RetryOutcome.updateFailed) = RetryOutcome.ok
      rw [h1]
      rfl
    · show get_job (update_job now (dlqReset job) table).2 i
        = some (applyUpdate now (dlqReset job) job)
      unfold update_job
      dsimp only
      have hrid : (dlqReset job).id = i := hid
      simp only [hrid]
      rw [get_job_map_update i (applyUpdate now (dlqReset job)) (fun r => rfl)
            table, hj]
      rfl

/-- A DEAD job for the requeue scenario (S5). -/
def deadJob : Job :=
  { id := "Z", command := "exit 1", state := JobState.dead,
    attempts := 3, max_retries := 3, created_at := 0, updated_at := 90,
    next_retry_at := none, error_message := some "Exit code 1",
    locked_by := none, locked_at := none }

/-- Concrete instances of `dlq_retry_spec`: requeue of the dead job "Z"
succeeds with the reset fields; an unknown id reports not-found; a pending
job reports invalid-state naming its state. -/
theorem dlq_retry_spec_witness :
    ((dlq_retry 200 "Z" [deadJob]).1 = RetryOutcome.ok ∧
      get_job (dlq_retry 200 "Z" [deadJob]).2 "Z"
        = some (applyUpdate 200 (dlqReset deadJob) deadJob) ∧
      (applyUpdate 200 (dlqReset deadJob) deadJob).state
        = JobState.pending ∧
      (applyUpdate 200 (dlqReset deadJob) deadJob).attempts = 0 ∧
      (applyUpdate 200 (dlqReset deadJob) deadJob).error_message = none ∧
      (applyUpdate 200 (dlqReset deadJob) deadJob).next_retry_at = none) ∧
    dlq_retry 200 "missing" [deadJob]
      = (RetryOutcome.notFound, [deadJob]) ∧
    dlq_retry 200 "F" [frameJob]
      = (RetryOutcome.invalidState frameJob.state, [frameJob]) :=
  ⟨(dlq_retry_spec 200 "Z" [deadJob]).2.2 deadJob (by decide) (by decide),
   (dlq_retry_spec 200 "missing" [deadJob]).1 (by decide),
   (dlq_retry_spec 200 "F" [frameJob]).2.1 frameJob (by decide) (by decide)⟩
